import Mathlib

/-!
Verification of the configr library core (src/src/index.ts): the property
registry, the object binder (loadFromObject), serialization (writeFilePrep),
default-document generation (serializeDefault), instance validation (isValid)
and the format-guessing boundary (guessParseFunction / guessSerializerFunction,
path extension handling).

The embedding models JavaScript runtime values with an explicit `JSValue`
variant (undefined included), plain objects as ordered key/value lists with
JS assignment semantics (update-in-place for an existing key, append for a
new one), and thrown errors as `Except` results. External collaborators
(file system, text parsers/serializers) are parameters: the file system is a
map from path to an optional raw text, and each text parser is abstracted as
a function from raw text to an already-parsed document.
-/

/-- A JavaScript runtime value as used by the library: config values are
strings, numbers, booleans, null, or undefined (absent). -/
inductive JSValue where
  | undefined
  | null
  | bool (b : Bool)
  | num (n : Int)
  | str (s : String)
deriving DecidableEq, Repr

/-- JavaScript truthiness: undefined, null, false, 0 and the empty string
are falsy; everything else is truthy. -/
def jsTruthy : JSValue → Bool
  | .undefined => false
  | .null => false
  | .bool b => b
  | .num n => n != 0
  | .str s => s != ""

/-- JavaScript `a || b`: returns `a` when truthy, else `b`. -/
def jsOr (a b : JSValue) : JSValue :=
  if jsTruthy a then a else b

/-- First-match lookup in an ordered entry list (JS property access). -/
def lookupEntries (k : String) : List (String × JSValue) → Option JSValue
  | [] => none
  | (k₀, v) :: rest => if k₀ = k then some v else lookupEntries k rest

/-- JS object-assignment semantics on the entry list: update the existing
key in place (keeping its position), else append at the end. -/
def setEntries (k : String) (v : JSValue) : List (String × JSValue) → List (String × JSValue)
  | [] => [(k, v)]
  | (k₀, v₀) :: rest => if k₀ = k then (k₀, v) :: rest else (k₀, v₀) :: setEntries k v rest

/-- A plain JavaScript object (POJO): an ordered mapping from string keys to
values. Key order is insertion order, as in the JS runtime. Both parsed
documents and class instances are modelled this way. -/
structure Doc where
  entries : List (String × JSValue)
deriving DecidableEq, Repr

/-- The empty object `{}`. -/
def emptyDoc : Doc := ⟨[]⟩

/-- Property read `obj[k]`: undefined when the key is absent. -/
def Doc.get (d : Doc) (k : String) : JSValue :=
  (lookupEntries k d.entries).getD .undefined

/-- `Reflect.has(obj, k)` / `k in obj`: key presence. -/
def Doc.hasKey (d : Doc) (k : String) : Bool :=
  (lookupEntries k d.entries).isSome

/-- Property write `obj[k] = v` / `Reflect.set(obj, k, v)`. -/
def Doc.set (d : Doc) (k : String) (v : JSValue) : Doc :=
  ⟨setEntries k v d.entries⟩

/-- `Object.keys(obj)`: the keys in insertion order. -/
def Doc.keys (d : Doc) : List String :=
  d.entries.map Prod.fst

/-- `Required<IAugmentedConfigPropOptions>`: one registered descriptor per
decorated field. `name` is the serialized name (already defaulted to the
property key by addToPropList), `default` and `placeholderText` are
JSValue.undefined when the option was not given, and `designTypeName` is the
`.name` of the reflected `design:type` constructor (e.g. "String",
"Boolean"). Property keys are modelled as strings (the source also allows
symbols, with an open TODO about them). -/
structure PropDesc where
  name : String
  default : JSValue
  required : Bool
  placeholderText : JSValue
  description : JSValue
  propertyKey : String
  designTypeName : String
deriving DecidableEq, Repr

/-- The `FileFormat` union type: the supported serialization formats. -/
inductive FileFormat where
  | json
  | json5
  | yaml
deriving DecidableEq, Repr

/-- JavaScript `String.toLowerCase()` (ASCII, which covers every token the
library compares against). -/
def jsToLower (s : String) : String :=
  ⟨s.data.map Char.toLower⟩

/-- JavaScript `String.replace('.', '')`: removes only the FIRST period. -/
def removeFirstDot : List Char → List Char
  | [] => []
  | c :: cs => if c = '.' then cs else c :: removeFirstDot cs

/-- Extension normalization used by both guess functions:
`extension.toLowerCase().replace('.', '')`. -/
def normalizeExt (ext : String) : String :=
  ⟨removeFirstDot (jsToLower ext).data⟩

/-- guessParseFunction: maps a file extension to the parser for that format,
or null (`none`) when no parser is known. Parsers are external string-to-
document functions, so only the chosen format tag is modelled. -/
def guessParseFunction (ext : String) : Option FileFormat :=
  match normalizeExt ext with
  | "json" => some .json
  | "yaml" => some .yaml
  | "json5" => some .json5
  | _ => none

/-- guessSerializerFunction: maps an extension or format token to the
serializer for that format, or null (`none`) when no serializer is known. -/
def guessSerializerFunction (ext : String) : Option FileFormat :=
  match normalizeExt ext with
  | "json" => some .json
  | "yaml" => some .yaml
  | "json5" => some .json5
  | _ => none

/-- Node's `path.extname`: the substring of the last path component from its
last period to the end; empty when there is no period or the period is the
first character of the component (dotfile). -/
def extname (p : String) : String :=
  let baseRev := p.data.reverse.takeWhile (fun c => c ≠ '/')
  match baseRev.findIdx? (fun c => c = '.') with
  | none => ""
  | some i => if i + 1 = baseRev.length then "" else ⟨(baseRev.take (i + 1)).reverse⟩

/-- The errors thrown by the library, one constructor per throw site:
`noFile` (read path missing), `noParser` (no parser for the extension),
`missingProps` (required fields absent from the source document), and
`typeErrorUndefined` (the runtime TypeError raised when a method iterates a
property list that is undefined). -/
inductive BindError where
  | noFile (path : String)
  | noParser (ext : String)
  | missingProps (names : List String)
  | typeErrorUndefined
deriving DecidableEq, Repr

instance : DecidableEq (Except BindError Doc)
  | .ok a, .ok b =>
    if h : a = b then .isTrue (by rw [h]) else .isFalse (fun hc => h (by cases hc; rfl))
  | .ok _, .error _ => .isFalse (fun hc => by cases hc)
  | .error _, .ok _ => .isFalse (fun hc => by cases hc)
  | .error a, .error b =>
    if h : a = b then .isTrue (by rw [h]) else .isFalse (fun hc => h (by cases hc; rfl))

/-- The mutable objects loadFromObject can reach: the input document `doc`,
the registered descriptor list `props` (this.propList) and the freshly
constructed instance `inst`. Threading this store makes it observable which
of them the operation writes. -/
structure BindStore where
  props : List PropDesc
  doc : Doc
  inst : Doc
deriving DecidableEq, Repr

/-- The forEach body of loadFromObject, iterating the descriptor list with
the local `missingProperties` accumulator. For each descriptor: push the
serialized name if the field is required and absent from the document; then
(inside the loop, as in the source) throw when the accumulator is non-empty;
otherwise assign `obj[prop.name] || prop.default` to the instance field. -/
def loadGo : List PropDesc → List String → BindStore → BindStore × Except BindError Doc
  | [], _missing, s => (s, .ok s.inst)
  | p :: rest, missing, s =>
      let missing₁ :=
        if p.required && !(s.doc.hasKey p.name) then missing ++ [p.name] else missing
      if missing₁.isEmpty then
        loadGo rest missing₁
          { s with inst := s.inst.set p.propertyKey (jsOr (s.doc.get p.name) p.default) }
      else
        (s, .error (.missingProps missing₁))

/-- Configr.loadFromObject: construct a fresh instance (`ctorInit` is the
object state produced by `Reflect.construct`), then run the descriptor loop.
Returns the final store together with the result (the populated instance, or
the thrown error). -/
def loadFromObject (props : List PropDesc) (ctorInit : Doc) (obj : Doc) :
    BindStore × Except BindError Doc :=
  loadGo props [] { props := props, doc := obj, inst := ctorInit }

/-- The objects writeFilePrep can reach: the descriptor list and the
instance being serialized. -/
structure WriteStore where
  props : List PropDesc
  obj : Doc
deriving DecidableEq, Repr

/-- The forEach body of writeFilePrep: for each descriptor in list order,
write the instance's field value under the serialized name into the
accumulating POJO `writeObj`. -/
def writeGo : List PropDesc → Doc → WriteStore → WriteStore × Doc
  | [], writeObj, s => (s, writeObj)
  | p :: rest, writeObj, s =>
      writeGo rest (writeObj.set p.name (s.obj.get p.propertyKey)) s

/-- Configr.writeFilePrep: build a fresh POJO from the instance, then pick a
serializer by `format || path.extname(filePath)`, falling back to
JSON.stringify when none matches. The serializer itself is external, so the
result is the chosen format tag together with the POJO it is applied to. -/
def writeFilePrep (props : List PropDesc) (obj : Doc) (filePath : String)
    (format : Option String) : WriteStore × FileFormat × Doc :=
  let r := writeGo props emptyDoc { props := props, obj := obj }
  (r.fst, ((guessSerializerFunction (format.getD (extname filePath))).getD .json, r.snd))

/-- Configr.serializeDefault: for each descriptor, emit the default when it
is truthy; else, when the field is required, emit
`placeholderText || "REQUIRED FIELD (<designType.name lowercased>)"`; else
emit nothing. Then pick a serializer for the format token, falling back to
JSON.stringify. -/
def serializeDefault (props : List PropDesc) (format : String) : FileFormat × Doc :=
  let outObj := props.foldl
    (fun o p =>
      if jsTruthy p.default then
        o.set p.name p.default
      else if p.required then
        o.set p.name
          (jsOr p.placeholderText
            (.str ("REQUIRED FIELD (" ++ jsToLower p.designTypeName ++ ")")))
      else o)
    emptyDoc
  ((guessSerializerFunction format).getD .json, outObj)

/-- Configr.isValid: `this.propList.every((prop) => { Reflect.has(_obj, prop.propertyKey) })`.
The arrow function has a block body without a return statement, so the
presence check is computed but the callback returns undefined, which `every`
coerces to a boolean. -/
def isValid (props : List PropDesc) (obj : Doc) : Bool :=
  props.all fun p =>
    let _check := obj.hasKey p.propertyKey
    jsTruthy JSValue.undefined

/-- Configr.fileReaderFn: normalize the path extension, look up a parser,
throw when none exists, else parse the raw text and hand the document to
loadFromObject. `parse` abstracts the external format parsers. -/
def fileReaderFn (props : List PropDesc) (ctorInit : Doc)
    (parse : FileFormat → String → Doc) (rawFile : String) (filePath : String) :
    Except BindError Doc :=
  let ext := jsToLower (extname filePath)
  match guessParseFunction ext with
  | none => .error (.noParser ext)
  | some fmt => (loadFromObject props ctorInit (parse fmt rawFile)).snd

/-- Configr.readFromFileSync: check the path exists, read the raw text, then
run fileReaderFn. The file system maps a path to its content when the file
exists. -/
def readFromFileSync (props : List PropDesc) (ctorInit : Doc)
    (parse : FileFormat → String → Doc) (fileSys : String → Option String)
    (filePath : String) : Except BindError Doc :=
  match fileSys filePath with
  | none => .error (.noFile filePath)
  | some rawFile => fileReaderFn props ctorInit parse rawFile filePath

/-- The per-class metadata table keyed by class identity
(`Reflect.getMetadata(ConfigPropListKey, target)`): `none` models metadata
that was never defined (an undecorated class). -/
abbrev RegistryMeta := String → Option (List PropDesc)

/-- getConfigPropList: the raw metadata read. For an undecorated class the
metadata is undefined, so the call returns undefined (`none`) rather than
failing. -/
def getConfigPropList (reg : RegistryMeta) (target : String) : Option (List PropDesc) :=
  reg target

/-- The IConfigPropOptions bag passed to the Prop decorator. -/
structure PropOptions where
  name : Option String
  default : JSValue
  required : Bool
  placeholderText : JSValue
  description : JSValue
deriving DecidableEq, Repr

/-- The augmented descriptor built by addToPropList: spread the options, add
the property key and the reflected design type; when `name` was not given
(or was the empty string — the source tests it truthily), use the property
key. -/
def mkAugmented (propertyKey : String) (designTypeName : String)
    (opts : PropOptions) : PropDesc :=
  { name :=
      match opts.name with
      | none => propertyKey
      | some n => if n = "" then propertyKey else n
    default := opts.default
    required := opts.required
    placeholderText := opts.placeholderText
    description := opts.description
    propertyKey := propertyKey
    designTypeName := designTypeName }

/-- addToPropList: ensure the class's metadata list exists (creating it
empty on first use), then push the new descriptor at the end. -/
def addToPropList (reg : RegistryMeta) (target : String) (propertyKey : String)
    (designTypeName : String) (opts : PropOptions) : RegistryMeta :=
  let current := (reg target).getD []
  fun t =>
    if t = target then some (current ++ [mkAugmented propertyKey designTypeName opts])
    else reg t

/-- The state of a Configr wrapper: `this.propList`, as assigned by the
constructor from the metadata read. For an undecorated class this is the
undefined value (`none`); the constructor itself never fails. -/
structure ConfigrState where
  propList : Option (List PropDesc)

/-- The Configr constructor: `this.propList = getConfigPropList(ctor.prototype)`. -/
def configrNew (reg : RegistryMeta) (ctor : String) : ConfigrState :=
  { propList := getConfigPropList reg ctor }

/-- loadFromObject as invoked through a Configr instance: iterating
`this.propList` when it is undefined raises a runtime TypeError. -/
def configrLoadFromObject (st : ConfigrState) (ctorInit : Doc) (obj : Doc) :
    Except BindError Doc :=
  match st.propList with
  | none => .error .typeErrorUndefined
  | some props => (loadFromObject props ctorInit obj).snd

/-- The net effect of the assignment loop of loadFromObject on the instance
when no required field is missing: fold the per-descriptor assignment over
the descriptor list (proof-side characterization, not source code). -/
def bindFold (doc : Doc) (props : List PropDesc) (inst : Doc) : Doc :=
  props.foldl (fun i p => i.set p.propertyKey (jsOr (doc.get p.name) p.default)) inst

/-! ### Concrete fixtures: the TestConfig1 schema from the test suite -/

/-- The `username` descriptor of TestConfig1: required, no default. -/
def testUsernameProp : PropDesc :=
  { name := "username", default := .undefined, required := true,
    placeholderText := .undefined, description := .undefined,
    propertyKey := "username", designTypeName := "String" }

/-- The `password` descriptor of TestConfig1: required, no default. -/
def testPasswordProp : PropDesc :=
  { name := "password", default := .undefined, required := true,
    placeholderText := .undefined, description := .undefined,
    propertyKey := "password", designTypeName := "String" }

/-- The `isAdmin` descriptor of TestConfig1: optional with default `false`. -/
def testIsAdminProp : PropDesc :=
  { name := "isAdmin", default := .bool false, required := false,
    placeholderText := .undefined, description := .undefined,
    propertyKey := "isAdmin", designTypeName := "Boolean" }

/-- The registered descriptor list of TestConfig1, in decoration order. -/
def testConfig1Props : List PropDesc :=
  [testUsernameProp, testPasswordProp, testIsAdminProp]

/-- The good input document of the test suite. -/
def testDoc1 : Doc :=
  ⟨[("username", .str "testUser"), ("password", .str "testPassword")]⟩

/-- A one-field schema with a required numeric field carrying a default:
used to exercise present-but-falsy document values. -/
def testCountProp : PropDesc :=
  { name := "count", default := .num 7, required := true,
    placeholderText := .undefined, description := .undefined,
    propertyKey := "count", designTypeName := "Number" }

/-- A document whose `count` key is present but falsy (the number 0). -/
def testFalsyDoc : Doc := ⟨[("count", .num 0)]⟩

/-- An instance of TestConfig1 carrying all three decorated fields. -/
def fullInstance1 : Doc :=
  ⟨[("username", .str "a"), ("password", .str "b"), ("isAdmin", .bool true)]⟩

/-- An instance of TestConfig1 missing the required `password` field. -/
def partialInstance1 : Doc := ⟨[("username", .str "u")]⟩

/-- A file system holding one TOML file. -/
def tomlFileSys : String → Option String :=
  fun p => if p = "config.toml" then some "key = 1" else none

/-- The metadata state before any class is decorated. -/
def emptyRegistry : RegistryMeta := fun _ => none

/-! ### Helper lemmas about the document model -/

theorem lookupEntries_set_same (k : String) (v : JSValue) (l : List (String × JSValue)) :
    lookupEntries k (setEntries k v l) = some v := by
  induction l with
  | nil => simp [setEntries, lookupEntries]
  | cons e rest ih =>
    obtain ⟨k₀, v₀⟩ := e
    by_cases h : k₀ = k
    · simp [setEntries, h, lookupEntries]
    · simp [setEntries, h, lookupEntries, ih]

theorem lookupEntries_set_ne (k k₁ : String) (v : JSValue) (l : List (String × JSValue))
    (h : k ≠ k₁) : lookupEntries k (setEntries k₁ v l) = lookupEntries k l := by
  induction l with
  | nil =>
    have hne : ¬ k₁ = k := fun he => h he.symm
    simp [setEntries, lookupEntries, hne]
  | cons e rest ih =>
    obtain ⟨k₀, v₀⟩ := e
    by_cases h₀ : k₀ = k₁
    · have hne : ¬ k₁ = k := fun he => h he.symm
      have hne₀ : ¬ k₀ = k := fun he => h (he ▸ h₀)
      simp [setEntries, h₀, lookupEntries, hne, hne₀]
    · simp [setEntries, h₀, lookupEntries, ih]

theorem Doc.get_set_same (d : Doc) (k : String) (v : JSValue) :
    (d.set k v).get k = v := by
  simp [Doc.get, Doc.set, lookupEntries_set_same]

theorem Doc.get_set_ne (d : Doc) (k k₁ : String) (v : JSValue) (h : k ≠ k₁) :
    (d.set k₁ v).get k = d.get k := by
  simp [Doc.get, Doc.set, lookupEntries_set_ne k k₁ v d.entries h]

theorem Doc.hasKey_set_ne (d : Doc) (k k₁ : String) (v : JSValue) (h : k ≠ k₁) :
    (d.set k₁ v).hasKey k = d.hasKey k := by
  simp [Doc.hasKey, Doc.set, lookupEntries_set_ne k k₁ v d.entries h]

theorem lookupEntries_none_of_hasKey_false (d : Doc) (k : String)
    (h : d.hasKey k = false) : lookupEntries k d.entries = none := by
  unfold Doc.hasKey at h
  cases hl : lookupEntries k d.entries with
  | none => rfl
  | some v => rw [hl] at h; cases h

theorem Doc.get_undefined_of_hasKey_false (d : Doc) (k : String)
    (h : d.hasKey k = false) : d.get k = .undefined := by
  unfold Doc.get
  rw [lookupEntries_none_of_hasKey_false d k h]
  rfl

theorem setEntries_absent (k : String) (v : JSValue) (l : List (String × JSValue))
    (h : lookupEntries k l = none) : setEntries k v l = l ++ [(k, v)] := by
  induction l with
  | nil => simp [setEntries]
  | cons e rest ih =>
    obtain ⟨k₀, v₀⟩ := e
    by_cases h₀ : k₀ = k
    · rw [lookupEntries, if_pos h₀] at h
      cases h
    · rw [lookupEntries, if_neg h₀] at h
      simp [setEntries, h₀, ih h]

/-! ### Helper lemmas about the binder loop -/

theorem loadGo_ok (props : List PropDesc) :
    ∀ s : BindStore, (∀ p ∈ props, p.required = true → s.doc.hasKey p.name = true) →
      loadGo props [] s =
        ({ s with inst := bindFold s.doc props s.inst },
          .ok (bindFold s.doc props s.inst)) := by
  induction props with
  | nil => intro s _; simp [loadGo, bindFold]
  | cons p rest ih =>
    intro s h
    have hp : p.required = true → s.doc.hasKey p.name = true := h p (by simp)
    have hcond : (p.required && !(s.doc.hasKey p.name)) = false := by
      cases hr : p.required with
      | false => simp
      | true => simp [hp hr]
    have hrest : ∀ q ∈ rest, q.required = true → s.doc.hasKey q.name = true := by
      intro q hq
      exact h q (List.mem_cons_of_mem p hq)
    have hstep := ih
      { props := s.props, doc := s.doc,
        inst := s.inst.set p.propertyKey (jsOr (s.doc.get p.name) p.default) } hrest
    have hunf : loadGo (p :: rest) [] s =
        loadGo rest []
          { props := s.props, doc := s.doc,
            inst := s.inst.set p.propertyKey (jsOr (s.doc.get p.name) p.default) } := by
      simp [loadGo, hcond]
    rw [hunf, hstep]
    simp [bindFold]

theorem loadGo_frame (props : List PropDesc) :
    ∀ (missing : List String) (s : BindStore),
      (loadGo props missing s).fst.doc = s.doc ∧
      (loadGo props missing s).fst.props = s.props := by
  induction props with
  | nil => intro missing s; exact ⟨rfl, rfl⟩
  | cons p rest ih =>
    intro missing s
    simp only [loadGo]
    split
    · split
      · exact ⟨(ih _ _).1, (ih _ _).2⟩
      · exact ⟨rfl, rfl⟩
    · split
      · exact ⟨(ih _ _).1, (ih _ _).2⟩
      · exact ⟨rfl, rfl⟩

theorem bindFold_get_notmem (doc : Doc) (props : List PropDesc) :
    ∀ (inst : Doc) (k : String), k ∉ props.map (fun p => p.propertyKey) →
      (bindFold doc props inst).get k = inst.get k := by
  induction props with
  | nil => intro inst k _; rfl
  | cons p rest ih =>
    intro inst k hk
    simp only [List.map_cons, List.mem_cons, not_or] at hk
    have hstep : bindFold doc (p :: rest) inst =
        bindFold doc rest (inst.set p.propertyKey (jsOr (doc.get p.name) p.default)) := by
      simp [bindFold]
    rw [hstep, ih _ k hk.2, Doc.get_set_ne _ _ _ _ hk.1]

theorem bindFold_get (doc : Doc) (props : List PropDesc) (p : PropDesc) :
    ∀ inst : Doc, (props.map fun q => q.propertyKey).Nodup → p ∈ props →
      (bindFold doc props inst).get p.propertyKey = jsOr (doc.get p.name) p.default := by
  induction props with
  | nil => intro inst _ hp; cases hp
  | cons q rest ih =>
    intro inst hnd hp
    have hstep : bindFold doc (q :: rest) inst =
        bindFold doc rest (inst.set q.propertyKey (jsOr (doc.get q.name) q.default)) := by
      simp [bindFold]
    rw [List.map_cons, List.nodup_cons] at hnd
    rcases List.mem_cons.mp hp with hpq | hpr
    · subst hpq
      rw [hstep, bindFold_get_notmem doc rest _ _ hnd.1, Doc.get_set_same]
    · rw [hstep]
      exact ih _ hnd.2 hpr

/-- loadFromObject, fully evaluated, when every required serialized name is
present in the document. -/
theorem loadFromObject_ok_eq (props : List PropDesc) (ctorInit doc : Doc)
    (hreq : ∀ p ∈ props, p.required = true → doc.hasKey p.name = true) :
    loadFromObject props ctorInit doc =
      ({ props := props, doc := doc, inst := bindFold doc props ctorInit },
        .ok (bindFold doc props ctorInit)) := by
  unfold loadFromObject
  exact loadGo_ok props { props := props, doc := doc, inst := ctorInit } hreq

/-! ### Helper lemmas about the serialization loop -/

theorem writeGo_fst (props : List PropDesc) :
    ∀ (w : Doc) (s : WriteStore), (writeGo props w s).fst = s := by
  induction props with
  | nil => intro w s; rfl
  | cons p rest ih => intro w s; simp [writeGo, ih]

theorem writeGo_entries (s : WriteStore) (props : List PropDesc) :
    ∀ w : Doc, (props.map fun p => p.name).Nodup →
      (∀ p ∈ props, w.hasKey p.name = false) →
      (writeGo props w s).snd.entries =
        w.entries ++ props.map (fun p => (p.name, s.obj.get p.propertyKey)) := by
  induction props with
  | nil => intro w _ _; simp [writeGo]
  | cons p rest ih =>
    intro w hnd hw
    rw [List.map_cons, List.nodup_cons] at hnd
    have habs : w.hasKey p.name = false := hw p (by simp)
    have hset : (w.set p.name (s.obj.get p.propertyKey)).entries =
        w.entries ++ [(p.name, s.obj.get p.propertyKey)] := by
      unfold Doc.set
      exact setEntries_absent _ _ _ (lookupEntries_none_of_hasKey_false w p.name habs)
    have hw₁ : ∀ q ∈ rest, (w.set p.name (s.obj.get p.propertyKey)).hasKey q.name = false := by
      intro q hq
      have hne : q.name ≠ p.name := by
        intro he
        exact hnd.1 (he ▸ List.mem_map_of_mem (fun r => r.name) hq)
      rw [Doc.hasKey_set_ne _ _ _ _ hne]
      exact hw q (List.mem_cons_of_mem p hq)
    rw [writeGo, ih _ hnd.2 hw₁, hset]
    simp

theorem lookupEntries_map_of_nodup (props : List PropDesc) (f : PropDesc → JSValue)
    (p : PropDesc) :
    (props.map fun q => q.name).Nodup → p ∈ props →
      lookupEntries p.name (props.map fun q => (q.name, f q)) = some (f p) := by
  induction props with
  | nil => intro _ hp; cases hp
  | cons q rest ih =>
    intro hnd hp
    rw [List.map_cons, List.nodup_cons] at hnd
    rcases List.mem_cons.mp hp with hpq | hpr
    · subst hpq
      simp [lookupEntries]
    · have hne : q.name ≠ p.name := by
        intro he
        exact hnd.1 (he ▸ List.mem_map_of_mem (fun r => r.name) hpr)
      simp only [List.map_cons, lookupEntries, if_neg hne]
      exact ih hnd.2 hpr

/-- The POJO produced by writeFilePrep, fully characterized: one entry per
descriptor in list order. -/
theorem writeFilePrep_doc_entries (props : List PropDesc) (obj : Doc)
    (filePath : String) (format : Option String)
    (hname : (props.map fun p => p.name).Nodup) :
    ((writeFilePrep props obj filePath format).snd.snd).entries =
      props.map fun p => (p.name, obj.get p.propertyKey) := by
  unfold writeFilePrep
  simp only
  rw [writeGo_entries { props := props, obj := obj } props emptyDoc hname
    (fun p _ => by simp [Doc.hasKey, emptyDoc, lookupEntries])]
  simp [emptyDoc]

theorem writeFilePrep_get (props : List PropDesc) (obj : Doc)
    (filePath : String) (format : Option String) (p : PropDesc)
    (hname : (props.map fun p => p.name).Nodup) (hp : p ∈ props) :
    ((writeFilePrep props obj filePath format).snd.snd).get p.name =
      obj.get p.propertyKey := by
  unfold Doc.get
  rw [writeFilePrep_doc_entries props obj filePath format hname,
    lookupEntries_map_of_nodup props (fun q => obj.get q.propertyKey) p hname hp]
  rfl

/-! ### Claim theorems -/

/-- Claim C1: for every input document containing every required
descriptor's serialized name, loadFromObject succeeds, and the bound
instance's field at each descriptor's property key equals the document's
value at the serialized name when that value is present and non-falsy, and
equals the descriptor's default value when the key is absent. -/
theorem loadFromObject_success (props : List PropDesc) (ctorInit doc : Doc)
    (hreq : ∀ p ∈ props, p.required = true → doc.hasKey p.name = true)
    (hnd : (props.map fun p => p.propertyKey).Nodup) :
    (loadFromObject props ctorInit doc).snd =
      .ok (loadFromObject props ctorInit doc).fst.inst ∧
    ∀ p ∈ props,
      (doc.hasKey p.name = true → jsTruthy (doc.get p.name) = true →
        ((loadFromObject props ctorInit doc).fst.inst).get p.propertyKey =
          doc.get p.name) ∧
      (doc.hasKey p.name = false →
        ((loadFromObject props ctorInit doc).fst.inst).get p.propertyKey =
          p.default) := by
  have h0 := loadFromObject_ok_eq props ctorInit doc hreq
  have hfst : (loadFromObject props ctorInit doc).fst.inst =
      bindFold doc props ctorInit := by rw [h0]
  have hsnd : (loadFromObject props ctorInit doc).snd =
      .ok (bindFold doc props ctorInit) := by rw [h0]
  refine ⟨by rw [hsnd, hfst], ?_⟩
  intro p hp
  refine ⟨?_, ?_⟩
  · intro _ htr
    rw [hfst, bindFold_get doc props p ctorInit hnd hp]
    unfold jsOr
    rw [htr]
    simp
  · intro habs
    rw [hfst, bindFold_get doc props p ctorInit hnd hp,
      Doc.get_undefined_of_hasKey_false doc p.name habs]
    rfl

/-- Witness for C1 at the spec's concrete scenario: TestConfig1 bound to
the document with username "testUser" and password "testPassword" yields
those two values and isAdmin = false (the default). -/
theorem loadFromObject_success_witness :
    (∀ p ∈ testConfig1Props, p.required = true → testDoc1.hasKey p.name = true) ∧
    ((testConfig1Props.map fun p => p.propertyKey).Nodup) ∧
    ((loadFromObject testConfig1Props emptyDoc testDoc1).snd =
        .ok (loadFromObject testConfig1Props emptyDoc testDoc1).fst.inst ∧
      ∀ p ∈ testConfig1Props,
        (testDoc1.hasKey p.name = true → jsTruthy (testDoc1.get p.name) = true →
          ((loadFromObject testConfig1Props emptyDoc testDoc1).fst.inst).get p.propertyKey =
            testDoc1.get p.name) ∧
        (testDoc1.hasKey p.name = false →
          ((loadFromObject testConfig1Props emptyDoc testDoc1).fst.inst).get p.propertyKey =
            p.default)) ∧
    ((loadFromObject testConfig1Props emptyDoc testDoc1).fst.inst.get "username" =
      .str "testUser") ∧
    ((loadFromObject testConfig1Props emptyDoc testDoc1).fst.inst.get "password" =
      .str "testPassword") ∧
    ((loadFromObject testConfig1Props emptyDoc testDoc1).fst.inst.get "isAdmin" =
      .bool false) :=
  ⟨by decide, by decide,
    loadFromObject_success testConfig1Props emptyDoc testDoc1 (by decide) (by decide),
    by decide, by decide, by decide⟩

/-- Claim C2 (code bug in the source): binding a document that misses the
required username AND password fields throws with only the FIRST missing
name, not the full list, because the length check sits inside the forEach
loop. The conjuncts exhibit that password is also required and missing yet
absent from the reported list. -/
theorem loadFromObject_failsFastOnFirstMissing :
    (loadFromObject testConfig1Props emptyDoc emptyDoc).snd =
      .error (.missingProps ["username"]) ∧
    testPasswordProp ∈ testConfig1Props ∧
    testPasswordProp.required = true ∧
    emptyDoc.hasKey testPasswordProp.name = false ∧
    "password" ∉ ["username"] :=
  ⟨by decide, by decide, by decide, by decide, by decide⟩

/-- Claim C3: a present-but-falsy document value is replaced by the
descriptor's default (the loose truthy test of `obj[name] || default`), and
for a required descriptor this does not raise the missing-field error, since
that check tests key presence rather than truthiness. -/
theorem loadFromObject_falsyReplacedByDefault (props : List PropDesc)
    (ctorInit doc : Doc) (p : PropDesc)
    (hreq : ∀ q ∈ props, q.required = true → doc.hasKey q.name = true)
    (hnd : (props.map fun q => q.propertyKey).Nodup)
    (hp : p ∈ props) (_hpresent : doc.hasKey p.name = true)
    (hfalsy : jsTruthy (doc.get p.name) = false) :
    (loadFromObject props ctorInit doc).snd =
      .ok (loadFromObject props ctorInit doc).fst.inst ∧
    ((loadFromObject props ctorInit doc).fst.inst).get p.propertyKey = p.default := by
  have h0 := loadFromObject_ok_eq props ctorInit doc hreq
  have hfst : (loadFromObject props ctorInit doc).fst.inst =
      bindFold doc props ctorInit := by rw [h0]
  have hsnd : (loadFromObject props ctorInit doc).snd =
      .ok (bindFold doc props ctorInit) := by rw [h0]
  refine ⟨by rw [hsnd, hfst], ?_⟩
  rw [hfst, bindFold_get doc props p ctorInit hnd hp]
  unfold jsOr
  rw [hfalsy]
  simp

/-- Witness for C3: a required `count` field with default 7 bound against
the document with count = 0 succeeds and receives 7, not 0. -/
theorem loadFromObject_falsyReplacedByDefault_witness :
    (∀ q ∈ [testCountProp], q.required = true → testFalsyDoc.hasKey q.name = true) ∧
    (([testCountProp].map fun q => q.propertyKey).Nodup) ∧
    testCountProp ∈ [testCountProp] ∧
    testFalsyDoc.hasKey testCountProp.name = true ∧
    jsTruthy (testFalsyDoc.get testCountProp.name) = false ∧
    ((loadFromObject [testCountProp] emptyDoc testFalsyDoc).snd =
        .ok (loadFromObject [testCountProp] emptyDoc testFalsyDoc).fst.inst ∧
      ((loadFromObject [testCountProp] emptyDoc testFalsyDoc).fst.inst).get
        testCountProp.propertyKey = testCountProp.default) :=
  ⟨by decide, by decide, by decide, by decide, by decide,
    loadFromObject_falsyReplacedByDefault [testCountProp] emptyDoc testFalsyDoc
      testCountProp (by decide) (by decide) (by decide) (by decide) (by decide)⟩

/-- Claim C4, counterexample: the claim says isValid reports every instance
valid (returns true regardless of input); on an instance of TestConfig1 that
carries all three decorated fields it returns false. -/
theorem isValid_not_always_true :
    isValid testConfig1Props fullInstance1 = false ∧
    fullInstance1.hasKey "username" = true ∧
    fullInstance1.hasKey "password" = true ∧
    fullInstance1.hasKey "isAdmin" = true :=
  ⟨by decide, by decide, by decide, by decide⟩

/-- Claim C4 (amended): isValid's result is indeed independent of the
instance — the per-field presence checks are computed but discarded, the
callback returns undefined — but `every` coerces that undefined to false, so
isValid returns false for every non-empty descriptor list and true only for
an empty one (it equals the emptiness test of the list). -/
theorem isValid_ignoresInstance (props : List PropDesc) (obj obj₂ : Doc) :
    isValid props obj = props.isEmpty ∧
    isValid props obj = isValid props obj₂ := by
  have h : ∀ o : Doc, isValid props o = props.isEmpty := by
    intro o
    cases props with
    | nil => rfl
    | cons p rest => simp [isValid, jsTruthy]
  exact ⟨h obj, (h obj).trans (h obj₂).symm⟩

/-- Claim C5 (code bug in the source): serializeDefault tests the default
truthily (`if (prop.default)`), so a default that IS set but falsy — the
repository's own TestConfig1 sets isAdmin's default to false — is omitted
from the generated document instead of appearing under its serialized name,
contradicting the option's doc comment ("If set, will be applied ... when
writing a default config file"). Required fields without a truthy default
get the generated placeholder embedding the lowercased declared type name. -/
theorem serializeDefault_dropsFalsyDefault :
    testIsAdminProp.default = JSValue.bool false ∧
    testIsAdminProp.default ≠ JSValue.undefined ∧
    testIsAdminProp ∈ testConfig1Props ∧
    (serializeDefault testConfig1Props "json").snd.hasKey "isAdmin" = false ∧
    (serializeDefault testConfig1Props "json").snd.get "username" =
      .str "REQUIRED FIELD (string)" ∧
    (serializeDefault testConfig1Props "json").snd.get "password" =
      .str "REQUIRED FIELD (string)" :=
  ⟨by decide, by decide, by decide, by decide, by decide, by decide⟩

/-- Claim C6: round-trip law. For a document that contains every required
serialized name and whose values at the schema's serialized names are all
truthy, binding succeeds and serializing the bound instance restores the
document's value at every serialized name present in the document. -/
theorem serialize_bind_roundTrip (props : List PropDesc) (ctorInit doc : Doc)
    (filePath : String) (format : Option String)
    (hpk : (props.map fun p => p.propertyKey).Nodup)
    (hname : (props.map fun p => p.name).Nodup)
    (hreq : ∀ p ∈ props, p.required = true → doc.hasKey p.name = true)
    (htruthy : ∀ p ∈ props, doc.hasKey p.name = true →
      jsTruthy (doc.get p.name) = true) :
    (loadFromObject props ctorInit doc).snd =
      .ok (loadFromObject props ctorInit doc).fst.inst ∧
    ∀ p ∈ props, doc.hasKey p.name = true →
      ((writeFilePrep props ((loadFromObject props ctorInit doc).fst.inst)
          filePath format).snd.snd).get p.name = doc.get p.name := by
  have h0 := loadFromObject_ok_eq props ctorInit doc hreq
  have hfst : (loadFromObject props ctorInit doc).fst.inst =
      bindFold doc props ctorInit := by rw [h0]
  have hsnd : (loadFromObject props ctorInit doc).snd =
      .ok (bindFold doc props ctorInit) := by rw [h0]
  refine ⟨by rw [hsnd, hfst], ?_⟩
  intro p hp hpres
  rw [hfst, writeFilePrep_get props (bindFold doc props ctorInit) filePath format p
    hname hp, bindFold_get doc props p ctorInit hpk hp]
  unfold jsOr
  rw [htruthy p hp hpres]
  simp

/-- Witness for C6 at the TestConfig1 scenario: serializing the instance
bound from the good test document restores username and password. -/
theorem serialize_bind_roundTrip_witness :
    ((testConfig1Props.map fun p => p.propertyKey).Nodup) ∧
    ((testConfig1Props.map fun p => p.name).Nodup) ∧
    (∀ p ∈ testConfig1Props, p.required = true → testDoc1.hasKey p.name = true) ∧
    (∀ p ∈ testConfig1Props, testDoc1.hasKey p.name = true →
      jsTruthy (testDoc1.get p.name) = true) ∧
    ((loadFromObject testConfig1Props emptyDoc testDoc1).snd =
        .ok (loadFromObject testConfig1Props emptyDoc testDoc1).fst.inst ∧
      ∀ p ∈ testConfig1Props, testDoc1.hasKey p.name = true →
        ((writeFilePrep testConfig1Props
            ((loadFromObject testConfig1Props emptyDoc testDoc1).fst.inst)
            "config.json" none).snd.snd).get p.name = testDoc1.get p.name) :=
  ⟨by decide, by decide, by decide, by decide,
    serialize_bind_roundTrip testConfig1Props emptyDoc testDoc1 "config.json" none
      (by decide) (by decide) (by decide) (by decide)⟩

/-- Claim C7: writeFilePrep writes, for each descriptor in registry order,
the instance's field value under the serialized name into a fresh mapping;
it performs no validation (the instance is arbitrary, a missing required
field simply yields that field's current — possibly undefined — value); the
produced key order equals descriptor registration order; and registration
(addToPropList) appends each new descriptor at the end of the class's list. -/
theorem writeFilePrep_registryOrder (props : List PropDesc) (obj : Doc)
    (filePath : String) (format : Option String)
    (hname : (props.map fun p => p.name).Nodup) :
    ((writeFilePrep props obj filePath format).snd.snd).keys =
      props.map (fun p => p.name) ∧
    (∀ p ∈ props, ((writeFilePrep props obj filePath format).snd.snd).get p.name =
      obj.get p.propertyKey) ∧
    (∀ (reg : RegistryMeta) (target pk ty : String) (opts : PropOptions),
      getConfigPropList (addToPropList reg target pk ty opts) target =
        some (((reg target).getD []) ++ [mkAugmented pk ty opts])) := by
  refine ⟨?_, ?_, ?_⟩
  · unfold Doc.keys
    rw [writeFilePrep_doc_entries props obj filePath format hname]
    simp
  · intro p hp
    exact writeFilePrep_get props obj filePath format p hname hp
  · intro reg target pk ty opts
    simp [getConfigPropList, addToPropList]

/-- Witness for C7: TestConfig1 serialized from an instance that lacks the
required password field still produces a document, with keys in registration
order and password mapped to the undefined value found on the instance. -/
theorem writeFilePrep_registryOrder_witness :
    ((testConfig1Props.map fun p => p.name).Nodup) ∧
    (((writeFilePrep testConfig1Props partialInstance1 "out.json" none).snd.snd).keys =
        testConfig1Props.map (fun p => p.name) ∧
      (∀ p ∈ testConfig1Props,
        ((writeFilePrep testConfig1Props partialInstance1 "out.json" none).snd.snd).get p.name =
          partialInstance1.get p.propertyKey) ∧
      (∀ (reg : RegistryMeta) (target pk ty : String) (opts : PropOptions),
        getConfigPropList (addToPropList reg target pk ty opts) target =
          some (((reg target).getD []) ++ [mkAugmented pk ty opts]))) ∧
    ((writeFilePrep testConfig1Props partialInstance1 "out.json" none).snd.snd).get
      "password" = .undefined :=
  ⟨by decide,
    writeFilePrep_registryOrder testConfig1Props partialInstance1 "out.json" none
      (by decide),
    by decide⟩

/-- Claim C8: reading a path whose extension has no registered parser fails
with the no-parser error, and the error does not depend on the file's
content (the content is universally quantified and absent from the result);
writing with an unknown extension or format token falls back to the default
JSON format instead of failing. -/
theorem unsupportedFormat_readErrors_writeFallsBack (props : List PropDesc)
    (ctorInit obj : Doc) (parse : FileFormat → String → Doc)
    (fileSys : String → Option String) (filePath content : String)
    (format : Option String)
    (hread : guessParseFunction (jsToLower (extname filePath)) = none)
    (hfs : fileSys filePath = some content)
    (hwrite : guessSerializerFunction (format.getD (extname filePath)) = none) :
    readFromFileSync props ctorInit parse fileSys filePath =
      .error (.noParser (jsToLower (extname filePath))) ∧
    (writeFilePrep props obj filePath format).snd.fst = .json := by
  constructor
  · simp only [readFromFileSync, hfs, fileReaderFn]
    rw [hread]
  · simp [writeFilePrep, hwrite]

/-- Witness for C8 at a `.toml` path: reading fails with the no-parser
error whatever the file holds, and writing with the "toml" format token
falls back to JSON. -/
theorem unsupportedFormat_witness :
    guessParseFunction (jsToLower (extname "config.toml")) = none ∧
    tomlFileSys "config.toml" = some "key = 1" ∧
    guessSerializerFunction ((some "toml").getD (extname "config.toml")) = none ∧
    (readFromFileSync testConfig1Props emptyDoc (fun _ _ => emptyDoc) tomlFileSys
        "config.toml" = .error (.noParser (jsToLower (extname "config.toml"))) ∧
      (writeFilePrep testConfig1Props fullInstance1 "config.toml"
        (some "toml")).snd.fst = .json) :=
  ⟨by decide, by decide, by decide,
    unsupportedFormat_readErrors_writeFallsBack testConfig1Props emptyDoc fullInstance1
      (fun _ _ => emptyDoc) tomlFileSys "config.toml" "key = 1" (some "toml")
      (by decide) (by decide) (by decide)⟩

/-- Claim C9, counterexample: for a class that was never decorated, the
descriptor-list lookup does NOT fail with a NotRegistered condition — it
silently returns the undefined value (`none`), and the Configr constructor
silently stores that unusable value. -/
theorem getConfigPropList_unregistered_silent :
    getConfigPropList emptyRegistry "UndecoratedClass" = none ∧
    (configrNew emptyRegistry "UndecoratedClass").propList = none :=
  ⟨rfl, rfl⟩

/-- Claim C9 (amended): for every class identity with no registered
metadata, the lookup returns undefined without failing, the constructor
stores undefined as the property list, and the failure only surfaces later —
as a runtime TypeError when a binder operation iterates the undefined list —
never as a NotRegistered condition at lookup time. -/
theorem lookup_unregistered_amended (reg : RegistryMeta) (c : String)
    (ctorInit doc : Doc) (h : reg c = none) :
    getConfigPropList reg c = none ∧
    (configrNew reg c).propList = none ∧
    configrLoadFromObject (configrNew reg c) ctorInit doc =
      .error .typeErrorUndefined := by
  refine ⟨h, h, ?_⟩
  simp [configrLoadFromObject, configrNew, getConfigPropList, h]

/-- Witness for C9's amended statement at the empty registry. -/
theorem lookup_unregistered_amended_witness :
    emptyRegistry "C0" = none ∧
    (getConfigPropList emptyRegistry "C0" = none ∧
      (configrNew emptyRegistry "C0").propList = none ∧
      configrLoadFromObject (configrNew emptyRegistry "C0") emptyDoc emptyDoc =
        .error .typeErrorUndefined) :=
  ⟨rfl, lookup_unregistered_amended emptyRegistry "C0" emptyDoc emptyDoc rfl⟩

/-- Claim C10: neither loadFromObject nor writeFilePrep mutates its inputs.
In the store-threaded embedding — where every JS write is an update to the
store component holding the targeted object — the input document and the
descriptor list come back unchanged from loadFromObject (on success and on
the thrown-error path alike, for any missing-fields state), and writeFilePrep
returns its store (descriptor list and instance) untouched, writing only to
the fresh output object. -/
theorem bind_serialize_noInputMutation (props : List PropDesc)
    (ctorInit doc obj : Doc) (filePath : String) (format : Option String) :
    (loadFromObject props ctorInit doc).fst.doc = doc ∧
    (loadFromObject props ctorInit doc).fst.props = props ∧
    (writeFilePrep props obj filePath format).fst = { props := props, obj := obj } := by
  refine ⟨?_, ?_, ?_⟩
  · exact (loadGo_frame props [] { props := props, doc := doc, inst := ctorInit }).1
  · exact (loadGo_frame props [] { props := props, doc := doc, inst := ctorInit }).2
  · simp [writeFilePrep, writeGo_fst]
